import Mathlib

/-!
Shallow embedding of the RAG orchestration in llama_assistant (agent.py and
processing_thread.py): chat data model, index update, the four pipeline stages
(setup, condense, retrieve, respond) and the surrounding worker-thread driver.
External providers (language model, embedding-based retriever ranking, file
reader) are passed as explicit oracle functions; the pipeline records the calls
it makes to them so that the claims about data flow can be stated directly.
-/

deriving instance DecidableEq for Except

namespace LlamaAssistant

/-- Chat message content: the source stores either a plain string or a
structured value carrying a text part and an image reference. -/
inductive Content where
  | text (s : String)
  | multimodal (s : String) (image : String)
  deriving DecidableEq

/-- Text part of a content value: convert_message_list_to_str uses the string
itself for plain content and the text field for structured content. -/
def Content.textPart : Content → String
  | .text s => s
  | .multimodal s _ => s

/-- True when the content carries an image reference. -/
def Content.hasImage : Content → Bool
  | .text _ => false
  | .multimodal _ _ => true

/-- One chat turn, as the dicts with role and content used in agent.py. -/
structure Message where
  role : String
  content : Content
  deriving DecidableEq

/-- convert_message_list_to_str from agent.py: renders each turn as
role, a colon and a space, the text part of the content, and a newline. -/
def convert_message_list_to_str (messages : List Message) : String :=
  messages.foldl (fun acc m => acc ++ m.role ++ ": " ++ m.content.textPart ++ "\n") ""

/-- A raw document as produced by the directory reader: source path and text. -/
structure RawDoc where
  file_path : String
  text : String
  deriving DecidableEq

/-- An indexed document after udpate_index assigned its page_index metadata. -/
structure Doc where
  file_path : String
  text : String
  page_index : Nat
  deriving DecidableEq

/-- The page_num_tracker loop of udpate_index: walks the documents in read
order, giving each one the current counter of its file_path as page_index and
then incrementing that counter. The tracker starts at zero for every key, as a
defaultdict of int does. -/
def assignPageIndices : List RawDoc → (String → Nat) → List Doc
  | [], _ => []
  | d :: ds, tracker =>
      { file_path := d.file_path, text := d.text, page_index := tracker d.file_path } ::
        assignPageIndices ds
          (fun k => if k = d.file_path then tracker k + 1 else tracker k)

/-- Observable index-store operations performed by udpate_index. -/
inductive IndexOp where
  | clear
  | buildFrom (docs : List Doc)
  | insert (d : Doc)
  deriving DecidableEq

/-- A retrieved node: rendered text and relevance score. -/
structure Node where
  text : String
  score : Rat
  deriving DecidableEq

/-- Mutable agent fields set in RAGAgent init: k, search_index, retriever,
chat_history, lookup_files. The search index is modelled by the list of
documents it holds; hasRetriever mirrors whether self.retriever is not None. -/
structure AgentState where
  k : Nat
  searchIndex : Option (List Doc)
  hasRetriever : Bool
  chatHistory : List Message
  lookupFiles : Finset String
  deriving DecidableEq

/-- RAGAgent.__init__: k = 3, no index, no retriever, empty history, empty
lookup-file set. -/
def initAgentState : AgentState :=
  { k := 3, searchIndex := none, hasRetriever := false, chatHistory := [],
    lookupFiles := ∅ }

/-- The similarity cutoff fixed in RAGAgent.__init__:
SimilarityPostprocessor(similarity_cutoff=0.3). -/
def similarity_cutoff : Rat := 3 / 10

/-- RAGAgent.SUMMARY_TEMPLATE with its two placeholders substituted. -/
def SUMMARY_TEMPLATE (chat_history_str query_str : String) : String :=
  "Given the chat history:\n\x27\x27\x27" ++ chat_history_str ++
    "\x27\x27\x27\n\nAnd the user asked the following question:" ++ query_str ++
    "\nRewrite to a standalone question:\n"

/-- RAGAgent.CONTEXT_PROMPT_TEMPLATE with its two placeholders substituted. -/
def CONTEXT_PROMPT_TEMPLATE (node_context query_str : String) : String :=
  "Information that might help:\n-----\n" ++ node_context ++
    "\n-----\nPlease write a response to the following question, using the above information if relevant:\n" ++
    query_str ++ "\n"

/-- RAGAgent.udpate_index. An empty file set clears retriever and index. A
non-empty set is read into documents and page indices are assigned; when no
index exists the index is built from those documents, otherwise each document
is inserted into the existing index. In both non-empty branches the retriever
is recreated from the index. The reader oracle stands for
SimpleDirectoryReader(input_files=files).load_data. Alongside the new state,
the list of index-store operations performed is returned. -/
def udpate_index (reader : Finset String → List RawDoc) (st : AgentState)
    (files : Finset String) : AgentState × List IndexOp :=
  if files = ∅ then
    ({ st with hasRetriever := false, searchIndex := none }, [IndexOp.clear])
  else
    let documents := assignPageIndices (reader files) (fun _ => 0)
    match st.searchIndex with
    | none =>
        ({ st with searchIndex := some documents, hasRetriever := true },
          [IndexOp.buildFrom documents])
    | some corpus =>
        ({ st with searchIndex := some (corpus ++ documents), hasRetriever := true },
          documents.map IndexOp.insert)

/-- The StartEvent payload of a pipeline invocation. -/
structure InvocationInput where
  query_str : String
  image : Option String
  lookup_files : Finset String
  streaming : Bool
  deriving DecidableEq

/-- The per-invocation context values stored by the setup step. -/
structure InvocationCtx where
  query_str : String
  image : Option String
  streaming : Bool
  deriving DecidableEq

/-- RAGAgent.setup: stores query, image and streaming flag into the context,
calls udpate_index only when the incoming lookup-file set differs from the
retained one, and then retains a copy of the incoming set. -/
def setup (reader : Finset String → List RawDoc) (st : AgentState)
    (ev : InvocationInput) : AgentState × InvocationCtx × List IndexOp :=
  let ctx : InvocationCtx :=
    { query_str := ev.query_str, image := ev.image, streaming := ev.streaming }
  if ev.lookup_files ≠ st.lookupFiles then
    let r := udpate_index reader st ev.lookup_files
    ({ r.1 with lookupFiles := ev.lookup_files }, ctx, r.2)
  else
    ({ st with lookupFiles := ev.lookup_files }, ctx, [])

/-- One recorded call to the language model: the message list passed to
create_chat_completion and the stream flag. -/
structure LLMCallRec where
  messages : List Message
  stream : Bool
  deriving DecidableEq

/-- The language-model oracle: create_chat_completion on a message list with a
stream flag, returning the completed content or raising. -/
def LLMOracle : Type := List Message → Bool → Except String String

/-- RAGAgent.condense_history_to_query: when the history is non-empty or a
retriever is configured, formats the summary template over the rendered
history and the query, makes one non-streaming model call, and wraps its
output as Context plus Question; otherwise the query is returned as is.
Returns the result together with the list of model calls made. -/
def condense_history_to_query (llm : LLMOracle) (st : AgentState)
    (query_str : String) : Except String String × List LLMCallRec :=
  if st.chatHistory ≠ [] ∨ st.hasRetriever then
    let chat_history_str := convert_message_list_to_str st.chatHistory
    let formated_query := SUMMARY_TEMPLATE chat_history_str query_str
    let msg : Message := { role := "user", content := Content.text formated_query }
    (match llm [msg] false with
      | Except.error e => Except.error e
      | Except.ok history_summary =>
          Except.ok ("Context:\n" ++ history_summary ++ "\nQuestion: " ++ query_str),
      [{ messages := [msg], stream := false }])
  else
    (Except.ok query_str, [])

/-- Modelled from the spec: the retriever created by
search_index.as_retriever(similarity_top_k=k) returns up to k nodes ranked by
descending relevance score. The underlying ranking is an oracle; the retriever
yields its first k results. -/
def retrieverRetrieve (rank : String → List Node) (k : Nat) (q : String) :
    List Node :=
  (rank q).take k

/-- Modelled from the spec: SimilarityPostprocessor drops every node whose
relevance score is below the similarity cutoff. -/
def postprocess_nodes (cutoff : Rat) (nodes : List Node) : List Node :=
  nodes.filter (fun n => decide (cutoff ≤ n.score))

/-- RAGAgent.retrieve: with no retriever configured, answers the empty node
list without consulting the ranking oracle; otherwise retrieves with the
condensed query and filters through the postprocessor. Also returns the list
of queries actually sent to the retriever. -/
def retrieve (rank : String → List Node) (st : AgentState)
    (condensed_query_str : String) : List Node × List String :=
  if st.hasRetriever then
    let nodes := retrieverRetrieve rank st.k condensed_query_str
    (postprocess_nodes similarity_cutoff nodes, [condensed_query_str])
  else
    ([], [])

/-- RAGAgent._prepare_query_with_context: an empty node list returns the query
verbatim; otherwise each rendered node text is surrounded by newlines,
concatenated, and substituted into the context prompt template together with
the query. -/
def _prepare_query_with_context (query_str : String) (nodes : List Node) :
    String :=
  if nodes.length = 0 then query_str
  else
    let node_context :=
      nodes.foldl (fun acc n => acc ++ "\n" ++ n.text ++ "\n\n") ""
    CONTEXT_PROMPT_TEMPLATE node_context query_str

/-- The message assembled by llm_response: with an image, a structured content
holding the context-augmented text and the image reference; otherwise plain
text content. -/
def formatMessage (query_with_ctx : String) (image : Option String) : Message :=
  match image with
  | some img => { role := "user", content := Content.multimodal query_with_ctx img }
  | none => { role := "user", content := Content.text query_with_ctx }

/-- RAGAgent.llm_response: prepares the context-augmented query, formats the
final message, calls the model on history plus that message with the
requested streaming flag, and on success appends the original query as a
plain user turn to the chat history. Returns the outcome together with the
model call made. -/
def llm_response (llm : LLMOracle) (st : AgentState) (ctx : InvocationCtx)
    (nodes : List Node) :
    Except String (AgentState × String) × List LLMCallRec :=
  let query_with_ctx := _prepare_query_with_context ctx.query_str nodes
  let formated_message := formatMessage query_with_ctx ctx.image
  let msgs := st.chatHistory ++ [formated_message]
  (match llm msgs ctx.streaming with
    | Except.error e => Except.error e
    | Except.ok response =>
        Except.ok
          ({ st with chatHistory :=
              st.chatHistory ++ [{ role := "user", content := Content.text ctx.query_str }] },
            response),
    [{ messages := msgs, stream := ctx.streaming }])

/-- Everything observable about one pipeline run: the agent state after the
run, the index-store operations, the model calls in order, the queries sent to
the retriever, and the result or the propagated error. -/
structure RunTrace where
  finalState : AgentState
  indexOps : List IndexOp
  llmCalls : List LLMCallRec
  retrieveQueries : List String
  result : Except String String

/-- The four steps of RAGAgent run in order: setup, condense, retrieve,
respond. A stage error aborts the run there; state mutations already made by
earlier stages persist, and the chat-history append happens only inside a
successful llm_response. -/
def runPipeline (reader : Finset String → List RawDoc) (llm : LLMOracle)
    (rank : String → List Node) (st : AgentState) (ev : InvocationInput) :
    RunTrace :=
  match condense_history_to_query llm (setup reader st ev).1
      (setup reader st ev).2.1.query_str with
  | (Except.error e, calls) =>
      { finalState := (setup reader st ev).1, indexOps := (setup reader st ev).2.2,
        llmCalls := calls, retrieveQueries := [], result := Except.error e }
  | (Except.ok condensed_query_str, calls) =>
      match llm_response llm (setup reader st ev).1 (setup reader st ev).2.1
          (retrieve rank (setup reader st ev).1 condensed_query_str).1 with
      | (Except.error e, calls2) =>
          { finalState := (setup reader st ev).1,
            indexOps := (setup reader st ev).2.2, llmCalls := calls ++ calls2,
            retrieveQueries :=
              (retrieve rank (setup reader st ev).1 condensed_query_str).2,
            result := Except.error e }
      | (Except.ok p, calls2) =>
          { finalState := p.1, indexOps := (setup reader st ev).2.2,
            llmCalls := calls ++ calls2,
            retrieveQueries :=
              (retrieve rank (setup reader st ev).1 condensed_query_str).2,
            result := Except.ok p.2 }

/-- Modelled from the spec: model_handler.update_chat_history, called by
ProcessingThread.run after the stream is fully consumed, appends one turn with
the given role and plain text content to the chat history. The handler module
is not under src; the spec describes it as a thin forwarding layer that owns
the assistant-turn append. -/
def update_chat_history (st : AgentState) (content : String) (role : String) :
    AgentState :=
  { st with chatHistory :=
      st.chatHistory ++ [{ role := role, content := Content.text content }] }

/-- ProcessingThread.run: drives one pipeline invocation; on success the
collected streamed output is appended as the assistant turn, on error the run
stops with the pipeline untouched past the failure point. -/
def processingRun (reader : Finset String → List RawDoc) (llm : LLMOracle)
    (rank : String → List Node) (st : AgentState) (ev : InvocationInput) :
    RunTrace :=
  match (runPipeline reader llm rank st ev).result with
  | Except.error _ => runPipeline reader llm rank st ev
  | Except.ok out =>
      { runPipeline reader llm rank st ev with
        finalState :=
          update_chat_history (runPipeline reader llm rank st ev).finalState
            out "assistant" }

/-! Concrete oracles and states used to exercise the theorems on explicit
inputs. -/

/-- A reader oracle over two small text files. -/
def exReader : Finset String → List RawDoc := fun s =>
  if s = ({"a.txt", "b.txt"} : Finset String) then
    [{ file_path := "a.txt", text := "A" }, { file_path := "b.txt", text := "B" }]
  else if s = ({"a.txt"} : Finset String) then
    [{ file_path := "a.txt", text := "A" }]
  else []

/-- A model oracle that always completes with the text fine. -/
def okLLM : LLMOracle := fun _ _ => Except.ok "fine"

/-- A model oracle that always completes with the text REWRITE. -/
def rewriteLLM : LLMOracle := fun _ _ => Except.ok "REWRITE"

/-- A model oracle that always fails. -/
def errLLM : LLMOracle := fun _ _ => Except.error "boom"

/-- A ranking oracle that finds nothing. -/
def exRank : String → List Node := fun _ => []

/-- A ranking oracle with four scored nodes. -/
def rankW : String → List Node := fun _ =>
  [{ text := "n1", score := 1 / 2 }, { text := "n2", score := 1 / 10 },
   { text := "n3", score := 2 / 5 }, { text := "n4", score := 9 / 10 }]

/-- First invocation of the index scenario: lookup set with one file. -/
def evA : InvocationInput :=
  { query_str := "q1", image := none, lookup_files := {"a.txt"}, streaming := false }

/-- Second invocation of the index scenario: the lookup set grew by one file. -/
def evB : InvocationInput :=
  { query_str := "q2", image := none, lookup_files := {"a.txt", "b.txt"},
    streaming := false }

/-- Agent state after the first invocation of the index scenario ran setup. -/
def stA : AgentState := (setup exReader initAgentState evA).1

/-- An invocation whose lookup set equals the one retained in stA. -/
def evEq : InvocationInput :=
  { query_str := "s", image := none, lookup_files := {"a.txt"}, streaming := true }

/-- A state with one prior chat turn and no retriever. -/
def stH : AgentState :=
  { k := 3, searchIndex := none, hasRetriever := false,
    chatHistory := [{ role := "user", content := Content.text "hi" }],
    lookupFiles := ∅ }

/-- A state with a configured retriever and empty history. -/
def stR : AgentState :=
  { k := 3, searchIndex := some [], hasRetriever := true, chatHistory := [],
    lookupFiles := ∅ }

/-- A plain invocation: no image, empty lookup set, no streaming. -/
def evW : InvocationInput :=
  { query_str := "hello", image := none, lookup_files := ∅, streaming := false }

/-- An invocation carrying an image reference. -/
def evI : InvocationInput :=
  { query_str := "look", image := some "img.png", lookup_files := ∅,
    streaming := false }

/-! Helper lemmas about the individual stages. -/

/-- The setup step always stores exactly the incoming query, image and
streaming flag into the invocation context. -/
theorem setup_ctx (reader : Finset String → List RawDoc) (st : AgentState)
    (ev : InvocationInput) :
    (setup reader st ev).2.1 =
      { query_str := ev.query_str, image := ev.image, streaming := ev.streaming } := by
  simp only [setup]
  split <;> rfl

/-- Projection of setup_ctx to the query string. -/
theorem setup_query_str (reader : Finset String → List RawDoc) (st : AgentState)
    (ev : InvocationInput) :
    (setup reader st ev).2.1.query_str = ev.query_str := by
  rw [setup_ctx]

/-- udpate_index never touches the chat history. -/
theorem udpate_index_chatHistory (reader : Finset String → List RawDoc)
    (st : AgentState) (files : Finset String) :
    (udpate_index reader st files).1.chatHistory = st.chatHistory := by
  simp only [udpate_index]
  split
  · rfl
  · split <;> rfl

/-- The setup step never touches the chat history. -/
theorem setup_chatHistory (reader : Finset String → List RawDoc) (st : AgentState)
    (ev : InvocationInput) :
    (setup reader st ev).1.chatHistory = st.chatHistory := by
  simp only [setup]
  split
  · exact udpate_index_chatHistory reader st ev.lookup_files
  · rfl

/-! Claim C7. -/

/-- Claim C7: composing the final prompt with an empty node sequence returns
the query verbatim, with no context section added. -/
theorem prepare_query_empty_nodes (q : String) :
    _prepare_query_with_context q [] = q := rfl

/-! Claim C5. -/

/-- Claim C5: when the incoming lookup-file set equals the previously retained
set, setup performs no index operation at all and leaves the whole agent
state, in particular the search index and the retriever, unchanged. -/
theorem setup_noop_on_equal_sets (reader : Finset String → List RawDoc)
    (st : AgentState) (ev : InvocationInput)
    (h : ev.lookup_files = st.lookupFiles) :
    setup reader st ev =
      (st, { query_str := ev.query_str, image := ev.image, streaming := ev.streaming },
        []) := by
  simp only [setup]
  rw [if_neg (not_not_intro h), h]

/-- Witness for setup_noop_on_equal_sets at an explicit input whose lookup set
equals the retained one. -/
theorem setup_noop_on_equal_sets_witness :
    setup exReader stA evEq =
      (stA, { query_str := "s", image := none, streaming := true }, []) :=
  setup_noop_on_equal_sets exReader stA evEq (by decide)

/-! Claim C1. -/

/-- Counterexample to claim C1: growing the lookup set from the single file
a.txt to the pair a.txt and b.txt makes setup insert both freshly read
documents into the existing index, duplicating a.txt; no clear operation and
no full rebuild happens. -/
theorem changed_set_clear_rebuild_cex :
    evB.lookup_files ≠ stA.lookupFiles ∧ evB.lookup_files ≠ ∅ ∧
    (setup exReader stA evB).2.2 =
      [IndexOp.insert { file_path := "a.txt", text := "A", page_index := 0 },
       IndexOp.insert { file_path := "b.txt", text := "B", page_index := 0 }] ∧
    IndexOp.clear ∉ (setup exReader stA evB).2.2 := by decide

/-- Claim C1 as amended: on a changed, non-empty lookup set, setup reads all
files of the new set and, when no index exists yet, builds the index from
those documents; when an index already exists, it inserts every document of
the new set (including the ones whose files were already indexed) into the
existing index. It never performs a clear when the new set is non-empty, and
the resulting index holds the previous corpus followed by all newly read
documents. -/
theorem changed_set_index_ops (reader : Finset String → List RawDoc)
    (st : AgentState) (ev : InvocationInput)
    (hne : ev.lookup_files ≠ st.lookupFiles) (hnonempty : ev.lookup_files ≠ ∅) :
    (setup reader st ev).2.2 =
      (match st.searchIndex with
        | none =>
            [IndexOp.buildFrom
              (assignPageIndices (reader ev.lookup_files) (fun _ => 0))]
        | some _ =>
            (assignPageIndices (reader ev.lookup_files) (fun _ => 0)).map
              IndexOp.insert) ∧
    IndexOp.clear ∉ (setup reader st ev).2.2 ∧
    (setup reader st ev).1.searchIndex =
      some (st.searchIndex.getD [] ++
        assignPageIndices (reader ev.lookup_files) (fun _ => 0)) := by
  simp only [setup]
  rw [if_pos hne]
  simp only [udpate_index]
  rw [if_neg hnonempty]
  cases hsi : st.searchIndex with
  | none => simp
  | some corpus =>
      refine ⟨rfl, ?_, rfl⟩
      simp [List.mem_map]

/-- Witness for changed_set_index_ops at the explicit grown lookup set. -/
theorem changed_set_index_ops_witness :
    IndexOp.clear ∉ (setup exReader stA evB).2.2 ∧
    (setup exReader stA evB).1.searchIndex =
      some (stA.searchIndex.getD [] ++
        assignPageIndices (exReader evB.lookup_files) (fun _ => 0)) :=
  ⟨(changed_set_index_ops exReader stA evB (by decide) (by decide)).2.1,
   (changed_set_index_ops exReader stA evB (by decide) (by decide)).2.2⟩

/-! Claim C8. -/

/-- Ordinal assignment, generalized over the running tracker: the page indices
of the documents of one source path form the consecutive range that starts at
the current tracker value of that path. -/
theorem assignPageIndices_ordinals (docs : List RawDoc) (tracker : String → Nat)
    (p : String) :
    ((assignPageIndices docs tracker).filter (fun d => d.file_path == p)).map
        Doc.page_index =
      List.range' (tracker p) ((docs.filter (fun d => d.file_path == p)).length) := by
  induction docs generalizing tracker with
  | nil => rfl
  | cons d ds ih =>
      by_cases h : d.file_path = p
      · simp [assignPageIndices, List.filter_cons, h, ih, List.range'_succ]
      · have hb : (d.file_path == p) = false := by simp [h]
        have ht : (if p = d.file_path then tracker p + 1 else tracker p) =
            tracker p := if_neg (fun hh => h hh.symm)
        simp only [assignPageIndices, List.filter_cons, hb, Bool.false_eq_true,
          if_false, ih, ht]

/-- Claim C8: after an index rebuild, the chunks of any given source file carry
page ordinals 0 to n-1 in read order, with no gaps or repeats, independently
of the chunks other files contribute; and the rebuilt corpus is exactly the
read documents with those ordinals assigned. -/
theorem rebuild_page_ordinals :
    (∀ (docs : List RawDoc) (p : String),
      ((assignPageIndices docs (fun _ => 0)).filter (fun d => d.file_path == p)).map
          Doc.page_index =
        List.range ((docs.filter (fun d => d.file_path == p)).length)) ∧
    (∀ (docs : List RawDoc) (p : String),
      (((assignPageIndices docs (fun _ => 0)).filter
          (fun d => d.file_path == p)).map Doc.page_index).Nodup) ∧
    (∀ (reader : Finset String → List RawDoc) (st : AgentState)
        (files : Finset String),
      st.searchIndex = none → files ≠ ∅ →
      (udpate_index reader st files).1.searchIndex =
        some (assignPageIndices (reader files) (fun _ => 0))) := by
  refine ⟨?_, ?_, ?_⟩
  · intro docs p
    rw [assignPageIndices_ordinals, List.range_eq_range']
  · intro docs p
    rw [assignPageIndices_ordinals, ← List.range_eq_range']
    exact List.nodup_range _
  · intro reader st files hsi hne
    simp only [udpate_index]
    rw [if_neg hne, hsi]

/-- Witness for rebuild_page_ordinals: a rebuild over one file stores the read
documents with assigned ordinals, and a three-document read with interleaved
source paths gives the a.txt documents the ordinals 0 and 1. -/
theorem rebuild_page_ordinals_witness :
    (udpate_index exReader initAgentState {"a.txt"}).1.searchIndex =
      some (assignPageIndices (exReader ({"a.txt"} : Finset String)) (fun _ => 0)) ∧
    ((assignPageIndices
        [{ file_path := "a.txt", text := "x" }, { file_path := "b.txt", text := "y" },
         { file_path := "a.txt", text := "z" }] (fun _ => 0)).filter
      (fun d => d.file_path == "a.txt")).map Doc.page_index = [0, 1] := by
  constructor
  · exact rebuild_page_ordinals.2.2 exReader initAgentState {"a.txt"} rfl (by decide)
  · rw [rebuild_page_ordinals.1
      [{ file_path := "a.txt", text := "x" }, { file_path := "b.txt", text := "y" },
       { file_path := "a.txt", text := "z" }] "a.txt"]
    decide

/-! Claim C3. -/

/-- Wrapping any rewrite between the Context header and the Question trailer
strictly lengthens the string, so the result is never the bare query. -/
theorem context_wrap_ne (out q : String) :
    "Context:\n" ++ out ++ "\nQuestion: " ++ q ≠ q := by
  intro h
  have hl := congrArg String.length h
  rw [String.length_append, String.length_append, String.length_append] at hl
  have h1 : "Context:\n".length = 9 := by decide
  have h2 : "\nQuestion: ".length = 11 := by decide
  omega

/-- The message handed to the model by the condensation stage. -/
def condenseMessage (st : AgentState) (query_str : String) : Message :=
  { role := "user",
    content := Content.text
      (SUMMARY_TEMPLATE (convert_message_list_to_str st.chatHistory) query_str) }

/-- Claim C3: with empty history and no retriever, condensation returns the
query unchanged and makes no model call; otherwise it makes exactly one
non-streaming model call on the summary template over the full history
transcript and the query, and on success returns the Context plus Question
wrapper around the rewrite, which is never the bare query. Hence a successful
condensation result equals the query exactly when history is empty and no
retriever is configured; in particular, after a setup with an empty
lookup-file set and with empty chat history the query comes back unchanged. -/
theorem condense_spec (llm : LLMOracle) (st : AgentState) (q : String) :
    (st.chatHistory = [] ∧ st.hasRetriever = false →
      condense_history_to_query llm st q = (Except.ok q, [])) ∧
    ((st.chatHistory ≠ [] ∨ st.hasRetriever = true) →
      (condense_history_to_query llm st q).2 =
        [{ messages := [condenseMessage st q], stream := false }] ∧
      (∀ out, llm [condenseMessage st q] false = Except.ok out →
        (condense_history_to_query llm st q).1 =
          Except.ok ("Context:\n" ++ out ++ "\nQuestion: " ++ q) ∧
        "Context:\n" ++ out ++ "\nQuestion: " ++ q ≠ q)) ∧
    (∀ r, (condense_history_to_query llm st q).1 = Except.ok r →
      (r = q ↔ st.chatHistory = [] ∧ st.hasRetriever = false)) ∧
    (∀ (reader : Finset String → List RawDoc) (ev : InvocationInput),
      ev.lookup_files = ∅ → st.chatHistory = [] →
      (st.lookupFiles = ∅ → st.hasRetriever = false) →
      (condense_history_to_query llm (setup reader st ev).1 ev.query_str).1 =
        Except.ok ev.query_str) := by
  refine ⟨?_, ?_, ?_, ?_⟩
  · rintro ⟨hh, hr⟩
    simp only [condense_history_to_query]
    rw [if_neg]
    simp [hh, hr]
  · intro hcond
    simp only [condense_history_to_query, condenseMessage]
    rw [if_pos hcond]
    refine ⟨rfl, ?_⟩
    intro out hout
    rw [hout]
    exact ⟨rfl, context_wrap_ne out q⟩
  · intro r hr
    by_cases hcond : st.chatHistory ≠ [] ∨ st.hasRetriever = true
    · simp only [condense_history_to_query] at hr
      rw [if_pos hcond] at hr
      constructor
      · intro hrq
        cases hl : llm [condenseMessage st q] false with
        | error e =>
            rw [show ([condenseMessage st q] : List Message) =
              [{ role := "user", content := Content.text (SUMMARY_TEMPLATE
                (convert_message_list_to_str st.chatHistory) q) }] from rfl] at hl
            rw [hl] at hr
            exact absurd hr (by simp)
        | ok out =>
            rw [show ([condenseMessage st q] : List Message) =
              [{ role := "user", content := Content.text (SUMMARY_TEMPLATE
                (convert_message_list_to_str st.chatHistory) q) }] from rfl] at hl
            rw [hl] at hr
            have : r = "Context:\n" ++ out ++ "\nQuestion: " ++ q := by
              simpa using hr.symm
            rw [this] at hrq
            exact absurd hrq (context_wrap_ne out q)
      · rintro ⟨hh, hrf⟩
        exact absurd hcond (by simp [hh, hrf])
    · push_neg at hcond
      have hrf : st.hasRetriever = false := by simpa using hcond.2
      have hq : q = r := by
        simp only [condense_history_to_query] at hr
        rw [if_neg (by simp [hcond.1, hrf])] at hr
        simpa using hr
      exact ⟨fun _ => ⟨hcond.1, hrf⟩, fun _ => hq.symm⟩
  · intro reader ev hempty hh himp
    have hh1 : (setup reader st ev).1.chatHistory = [] := by
      rw [setup_chatHistory]; exact hh
    have hr1 : (setup reader st ev).1.hasRetriever = false := by
      simp only [setup]
      split
      · simp only [udpate_index]
        rw [hempty, if_pos rfl]
      · rename_i hne
        have heq : ev.lookup_files = st.lookupFiles := not_not.mp hne
        have : st.lookupFiles = ∅ := by rw [← heq]; exact hempty
        exact himp this
    simp only [condense_history_to_query]
    rw [if_neg]
    simp [hh1, hr1]

/-- Witness for condense_spec: the fast path returns the query untouched with
no model call, and with one prior chat turn the stage returns the wrapped
rewrite of the concrete model oracle. -/
theorem condense_spec_witness :
    condense_history_to_query rewriteLLM initAgentState "solo" =
      (Except.ok "solo", []) ∧
    (condense_history_to_query rewriteLLM stH "next").1 =
      Except.ok ("Context:\n" ++ "REWRITE" ++ "\nQuestion: " ++ "next") := by
  refine ⟨(condense_spec rewriteLLM initAgentState "solo").1 ⟨rfl, rfl⟩, ?_⟩
  exact (((condense_spec rewriteLLM stH "next").2.1
    (Or.inl (by decide))).2 "REWRITE" rfl).1

/-! Claim C6. -/

/-- Claim C6: retrieval returns at most k nodes, k being 3 in the initial
agent state, and every returned node scores at least the similarity cutoff,
which is fixed at 0.3; with no retriever configured the stage answers the
empty node list without consulting the ranking oracle, and this is not an
error. -/
theorem retrieve_spec (rank : String → List Node) (st : AgentState) (q : String) :
    (retrieve rank st q).1.length ≤ st.k ∧
    (∀ n ∈ (retrieve rank st q).1, similarity_cutoff ≤ n.score) ∧
    (st.hasRetriever = false → retrieve rank st q = ([], [])) ∧
    initAgentState.k = 3 ∧ similarity_cutoff = 3 / 10 := by
  refine ⟨?_, ?_, ?_, rfl, rfl⟩
  · simp only [retrieve]
    split
    · calc (postprocess_nodes similarity_cutoff
            (retrieverRetrieve rank st.k q)).length
          ≤ (retrieverRetrieve rank st.k q).length :=
            List.length_filter_le _ _
        _ ≤ st.k := (rank q).length_take_le st.k
    · simp
  · intro n hn
    simp only [retrieve] at hn
    split at hn
    · have := (List.mem_filter.mp hn).2
      exact of_decide_eq_true this
    · exact absurd hn (List.not_mem_nil n)
  · intro hf
    simp only [retrieve]
    rw [if_neg]
    simp [hf]

/-- Witness for retrieve_spec: with a configured retriever the four-node
ranking oracle yields at most three nodes, the node scoring 2/5 is above the
cutoff, and without a retriever the stage answers the empty list. -/
theorem retrieve_spec_witness :
    (retrieve rankW stR "q").1.length ≤ stR.k ∧
    similarity_cutoff ≤ (Node.mk "n3" (2 / 5)).score ∧
    retrieve rankW initAgentState "q" = ([], []) := by
  refine ⟨(retrieve_spec rankW stR "q").1, ?_,
    (retrieve_spec rankW initAgentState "q").2.2.1 rfl⟩
  refine (retrieve_spec rankW stR "q").2.1 (Node.mk "n3" (2 / 5)) ?_
  have hl : (retrieve rankW stR "q").1 =
      [{ text := "n1", score := 1 / 2 }, { text := "n3", score := 2 / 5 }] := by
    simp only [retrieve, stR, retrieverRetrieve, rankW, postprocess_nodes,
      similarity_cutoff, if_true]
    norm_num [List.filter]
  rw [hl]
  simp

/-! Helper lemmas about llm_response and the assembled pipeline. -/

/-- The respond step makes exactly one model call, on the chat history
followed by the formatted final message, with the requested streaming flag. -/
theorem llm_response_calls (llm : LLMOracle) (st : AgentState)
    (ctx : InvocationCtx) (nodes : List Node) :
    (llm_response llm st ctx nodes).2 =
      [{ messages := (st.chatHistory ++
           [formatMessage (_prepare_query_with_context ctx.query_str nodes) ctx.image]),
         stream := ctx.streaming }] := rfl

/-- The respond step returns exactly what the model call returns: the error on
failure, and otherwise the response paired with the state whose history got
the original query appended as a user turn. -/
theorem llm_response_fst (llm : LLMOracle) (st : AgentState)
    (ctx : InvocationCtx) (nodes : List Node) :
    (llm_response llm st ctx nodes).1 =
      match llm (st.chatHistory ++
          [formatMessage (_prepare_query_with_context ctx.query_str nodes) ctx.image])
          ctx.streaming with
      | Except.error e => Except.error e
      | Except.ok response =>
          Except.ok
            ({ st with chatHistory := st.chatHistory ++
                [{ role := "user", content := Content.text ctx.query_str }] },
              response) := rfl

/-- On success the respond step appended exactly one user turn holding the
original query to the chat history. -/
theorem llm_response_ok_state (llm : LLMOracle) (st : AgentState)
    (ctx : InvocationCtx) (nodes : List Node) (p : AgentState × String)
    (h : (llm_response llm st ctx nodes).1 = Except.ok p) :
    p.1.chatHistory =
      st.chatHistory ++ [{ role := "user", content := Content.text ctx.query_str }] := by
  rw [llm_response_fst] at h
  cases hl : llm (st.chatHistory ++
      [formatMessage (_prepare_query_with_context ctx.query_str nodes) ctx.image])
      ctx.streaming with
  | error e => rw [hl] at h; exact absurd h (by simp)
  | ok r =>
      rw [hl] at h
      simp only [Except.ok.injEq] at h
      rw [← h]

/-- Shape of the pipeline once the condensation stage has succeeded: the run
is decided by the single generation call of llm_response. -/
theorem runPipeline_after_condense (reader : Finset String → List RawDoc)
    (llm : LLMOracle) (rank : String → List Node) (st : AgentState)
    (ev : InvocationInput) (condensed : String) (calls : List LLMCallRec)
    (hcc : condense_history_to_query llm (setup reader st ev).1
      (setup reader st ev).2.1.query_str = (Except.ok condensed, calls)) :
    runPipeline reader llm rank st ev =
      (match llm_response llm (setup reader st ev).1 (setup reader st ev).2.1
          (retrieve rank (setup reader st ev).1 condensed).1 with
      | (Except.error e, calls2) =>
          { finalState := (setup reader st ev).1,
            indexOps := (setup reader st ev).2.2, llmCalls := calls ++ calls2,
            retrieveQueries := (retrieve rank (setup reader st ev).1 condensed).2,
            result := Except.error e }
      | (Except.ok p, calls2) =>
          { finalState := p.1, indexOps := (setup reader st ev).2.2,
            llmCalls := calls ++ calls2,
            retrieveQueries := (retrieve rank (setup reader st ev).1 condensed).2,
            result := Except.ok p.2 }) := by
  unfold runPipeline
  rw [hcc]

/-- Shape of a successful pipeline run: the condensation stage succeeded with
some condensed query, the final history is the initial one extended by the
original user query, the model calls end with the generation call on the
context-augmented original query, and the retriever was consulted exactly as
the retrieve stage dictates. -/
theorem runPipeline_ok_cases (reader : Finset String → List RawDoc)
    (llm : LLMOracle) (rank : String → List Node) (st : AgentState)
    (ev : InvocationInput) (out : String)
    (h : (runPipeline reader llm rank st ev).result = Except.ok out) :
    ∃ condensed,
      (condense_history_to_query llm (setup reader st ev).1 ev.query_str).1 =
        Except.ok condensed ∧
      (runPipeline reader llm rank st ev).finalState.chatHistory =
        st.chatHistory ++ [{ role := "user", content := Content.text ev.query_str }] ∧
      (runPipeline reader llm rank st ev).llmCalls =
        (condense_history_to_query llm (setup reader st ev).1 ev.query_str).2 ++
          [{ messages := ((setup reader st ev).1.chatHistory ++
               [formatMessage (_prepare_query_with_context ev.query_str
                 (retrieve rank (setup reader st ev).1 condensed).1) ev.image]),
             stream := ev.streaming }] ∧
      (runPipeline reader llm rank st ev).retrieveQueries =
        (retrieve rank (setup reader st ev).1 condensed).2 := by
  rcases hcc : condense_history_to_query llm (setup reader st ev).1
      (setup reader st ev).2.1.query_str with ⟨c, calls⟩
  have hcc2 : condense_history_to_query llm (setup reader st ev).1 ev.query_str =
      (c, calls) := by
    rw [← setup_query_str reader st ev]; exact hcc
  cases c with
  | error e =>
      have hrun : runPipeline reader llm rank st ev =
          { finalState := (setup reader st ev).1,
            indexOps := (setup reader st ev).2.2, llmCalls := calls,
            retrieveQueries := [], result := Except.error e } := by
        unfold runPipeline
        rw [hcc]
      rw [hrun] at h
      exact absurd h (by simp)
  | ok condensed =>
      rcases hlr : llm_response llm (setup reader st ev).1 (setup reader st ev).2.1
          (retrieve rank (setup reader st ev).1 condensed).1 with ⟨r, calls2⟩
      cases r with
      | error e =>
          have hrun : runPipeline reader llm rank st ev =
              { finalState := (setup reader st ev).1,
                indexOps := (setup reader st ev).2.2, llmCalls := calls ++ calls2,
                retrieveQueries :=
                  (retrieve rank (setup reader st ev).1 condensed).2,
                result := Except.error e } := by
            rw [runPipeline_after_condense reader llm rank st ev condensed calls hcc,
              hlr]
          rw [hrun] at h
          exact absurd h (by simp)
      | ok p =>
          have hrun : runPipeline reader llm rank st ev =
              { finalState := p.1, indexOps := (setup reader st ev).2.2,
                llmCalls := calls ++ calls2,
                retrieveQueries :=
                  (retrieve rank (setup reader st ev).1 condensed).2,
                result := Except.ok p.2 } := by
            rw [runPipeline_after_condense reader llm rank st ev condensed calls hcc,
              hlr]
          refine ⟨condensed, congrArg Prod.fst hcc2, ?_, ?_, ?_⟩
          · rw [hrun]
            have hp : (llm_response llm (setup reader st ev).1
                (setup reader st ev).2.1
                (retrieve rank (setup reader st ev).1 condensed).1).1 =
                Except.ok p := by rw [hlr]
            have hs := llm_response_ok_state llm (setup reader st ev).1
              (setup reader st ev).2.1
              (retrieve rank (setup reader st ev).1 condensed).1 p hp
            rw [setup_ctx] at hs
            simp only at hs
            simp only [hs, setup_chatHistory]
          · rw [hrun]
            have h2 : calls =
                (condense_history_to_query llm (setup reader st ev).1 ev.query_str).2 :=
              (congrArg Prod.snd hcc2).symm
            have h3 : calls2 = (llm_response llm (setup reader st ev).1
                (setup reader st ev).2.1
                (retrieve rank (setup reader st ev).1 condensed).1).2 :=
              (congrArg Prod.snd hlr).symm
            rw [llm_response_calls, setup_ctx] at h3
            simp only at h3
            rw [h3, ← h2]
          · rw [hrun]

/-- On a failed pipeline run the chat history is exactly the initial one. -/
theorem runPipeline_error_hist (reader : Finset String → List RawDoc)
    (llm : LLMOracle) (rank : String → List Node) (st : AgentState)
    (ev : InvocationInput) (e : String)
    (h : (runPipeline reader llm rank st ev).result = Except.error e) :
    (runPipeline reader llm rank st ev).finalState.chatHistory = st.chatHistory := by
  rcases hcc : condense_history_to_query llm (setup reader st ev).1
      (setup reader st ev).2.1.query_str with ⟨c, calls⟩
  cases c with
  | error e2 =>
      have hrun : runPipeline reader llm rank st ev =
          { finalState := (setup reader st ev).1,
            indexOps := (setup reader st ev).2.2, llmCalls := calls,
            retrieveQueries := [], result := Except.error e2 } := by
        unfold runPipeline
        rw [hcc]
      rw [hrun]
      exact setup_chatHistory reader st ev
  | ok condensed =>
      rcases hlr : llm_response llm (setup reader st ev).1 (setup reader st ev).2.1
          (retrieve rank (setup reader st ev).1 condensed).1 with ⟨r, calls2⟩
      cases r with
      | error e2 =>
          have hrun : runPipeline reader llm rank st ev =
              { finalState := (setup reader st ev).1,
                indexOps := (setup reader st ev).2.2, llmCalls := calls ++ calls2,
                retrieveQueries :=
                  (retrieve rank (setup reader st ev).1 condensed).2,
                result := Except.error e2 } := by
            rw [runPipeline_after_condense reader llm rank st ev condensed calls hcc,
              hlr]
          rw [hrun]
          exact setup_chatHistory reader st ev
      | ok p =>
          have hrun : runPipeline reader llm rank st ev =
              { finalState := p.1, indexOps := (setup reader st ev).2.2,
                llmCalls := calls ++ calls2,
                retrieveQueries :=
                  (retrieve rank (setup reader st ev).1 condensed).2,
                result := Except.ok p.2 } := by
            rw [runPipeline_after_condense reader llm rank st ev condensed calls hcc,
              hlr]
          rw [hrun] at h
          exact absurd h (by simp)

/-! Claim C4. -/

/-- Claim C4: a stage error leaves the chat history exactly as it was — the
user-turn append happens only after a successful generation call — and no
stage error is silently swallowed: a condensation failure and a generation
failure each become the result of the whole run. -/
theorem pipeline_error_frame (reader : Finset String → List RawDoc)
    (llm : LLMOracle) (rank : String → List Node) (st : AgentState)
    (ev : InvocationInput) (e : String) :
    ((runPipeline reader llm rank st ev).result = Except.error e →
      (runPipeline reader llm rank st ev).finalState.chatHistory = st.chatHistory) ∧
    ((condense_history_to_query llm (setup reader st ev).1 ev.query_str).1 =
        Except.error e →
      (runPipeline reader llm rank st ev).result = Except.error e) ∧
    (∀ condensed,
      (condense_history_to_query llm (setup reader st ev).1 ev.query_str).1 =
        Except.ok condensed →
      (llm_response llm (setup reader st ev).1 (setup reader st ev).2.1
          (retrieve rank (setup reader st ev).1 condensed).1).1 = Except.error e →
      (runPipeline reader llm rank st ev).result = Except.error e) := by
  refine ⟨runPipeline_error_hist reader llm rank st ev e, ?_, ?_⟩
  · intro hc
    rcases hp : condense_history_to_query llm (setup reader st ev).1
        (setup reader st ev).2.1.query_str with ⟨c, calls⟩
    have hp2 : condense_history_to_query llm (setup reader st ev).1 ev.query_str =
        (c, calls) := by
      rw [← setup_query_str reader st ev]; exact hp
    have hcer : c = Except.error e := (congrArg Prod.fst hp2).symm.trans hc
    have hrun : runPipeline reader llm rank st ev =
        { finalState := (setup reader st ev).1,
          indexOps := (setup reader st ev).2.2, llmCalls := calls,
          retrieveQueries := [], result := Except.error e } := by
      unfold runPipeline
      rw [hp, hcer]
    rw [hrun]
  · intro condensed hcok hresp
    rcases hp : condense_history_to_query llm (setup reader st ev).1
        (setup reader st ev).2.1.query_str with ⟨c, calls⟩
    have hp2 : condense_history_to_query llm (setup reader st ev).1 ev.query_str =
        (c, calls) := by
      rw [← setup_query_str reader st ev]; exact hp
    have hcer : c = Except.ok condensed := (congrArg Prod.fst hp2).symm.trans hcok
    rw [hcer] at hp
    rcases hlr : llm_response llm (setup reader st ev).1 (setup reader st ev).2.1
        (retrieve rank (setup reader st ev).1 condensed).1 with ⟨r, calls2⟩
    have hrer : r = Except.error e := (congrArg Prod.fst hlr).symm.trans hresp
    rw [hrer] at hlr
    rw [runPipeline_after_condense reader llm rank st ev condensed calls hp, hlr]

/-- Witness for pipeline_error_frame: with a model oracle that always fails,
the plain invocation fails at the generation stage with that error and the
chat history stays empty. -/
theorem pipeline_error_frame_witness :
    (runPipeline exReader errLLM exRank initAgentState evW).result =
      Except.error "boom" ∧
    (runPipeline exReader errLLM exRank initAgentState evW).finalState.chatHistory =
      initAgentState.chatHistory := by
  have h := pipeline_error_frame exReader errLLM exRank initAgentState evW "boom"
  have h3 := h.2.2 "hello" (by decide) (by decide)
  exact ⟨h3, h.1 h3⟩

/-! Claim C2. -/

/-- Claim C2: after a successful invocation driven by the worker thread, the
chat history equals the previous history extended by exactly two turns — the
original user query as a plain user turn, then the collected model output as
the assistant turn — so neither the condensed query nor the context-augmented
prompt is ever stored; the initial history is empty. -/
theorem processing_success_history (reader : Finset String → List RawDoc)
    (llm : LLMOracle) (rank : String → List Node) (st : AgentState)
    (ev : InvocationInput) (out : String)
    (h : (processingRun reader llm rank st ev).result = Except.ok out) :
    (processingRun reader llm rank st ev).finalState.chatHistory =
      st.chatHistory ++
        [{ role := "user", content := Content.text ev.query_str },
         { role := "assistant", content := Content.text out }] ∧
    initAgentState.chatHistory = [] := by
  refine ⟨?_, rfl⟩
  cases hres : (runPipeline reader llm rank st ev).result with
  | error e =>
      have hpr : processingRun reader llm rank st ev =
          runPipeline reader llm rank st ev := by
        unfold processingRun
        rw [hres]
      rw [hpr] at h
      rw [hres] at h
      exact absurd h (by simp)
  | ok o =>
      have hpr : processingRun reader llm rank st ev =
          { runPipeline reader llm rank st ev with
            finalState :=
              update_chat_history (runPipeline reader llm rank st ev).finalState
                o "assistant" } := by
        unfold processingRun
        rw [hres]
      rw [hpr] at h
      have h2 : (runPipeline reader llm rank st ev).result = Except.ok out := h
      rw [hres] at h2
      have ho : o = out := by
        simpa using h2
      obtain ⟨condensed, hcok, hhist, hcalls, hrq⟩ :=
        runPipeline_ok_cases reader llm rank st ev o hres
      rw [hpr]
      show (runPipeline reader llm rank st ev).finalState.chatHistory ++
          [{ role := "assistant", content := Content.text o }] = _
      rw [hhist, ho, List.append_assoc]
      rfl

/-- Witness for processing_success_history: a concrete successful run appends
the user turn hello and the assistant turn fine to the empty history. -/
theorem processing_success_history_witness :
    (processingRun exReader okLLM exRank initAgentState evW).finalState.chatHistory =
      initAgentState.chatHistory ++
        [{ role := "user", content := Content.text "hello" },
         { role := "assistant", content := Content.text "fine" }] :=
  (processing_success_history exReader okLLM exRank initAgentState evW "fine"
    (by decide)).1

/-! Claim C9. -/

/-- Claim C9: when the invocation carries an image, the image reference shows
up only inside the structured final message handed to the model; the turns
appended to the chat history hold plain text only — the original query and
the model output — so no image is ever stored in the history. -/
theorem image_only_in_model_call (reader : Finset String → List RawDoc)
    (llm : LLMOracle) (rank : String → List Node) (st : AgentState)
    (ev : InvocationInput) (img out : String)
    (himg : ev.image = some img)
    (h : (processingRun reader llm rank st ev).result = Except.ok out) :
    (∃ s, (processingRun reader llm rank st ev).llmCalls.getLast? =
      some { messages := ((setup reader st ev).1.chatHistory ++
               [{ role := "user", content := Content.multimodal s img }]),
             stream := ev.streaming }) ∧
    (processingRun reader llm rank st ev).finalState.chatHistory =
      st.chatHistory ++
        [{ role := "user", content := Content.text ev.query_str },
         { role := "assistant", content := Content.text out }] ∧
    (∀ m ∈ (processingRun reader llm rank st ev).finalState.chatHistory.drop
        st.chatHistory.length, m.content.hasImage = false) := by
  cases hres : (runPipeline reader llm rank st ev).result with
  | error e =>
      have hpr : processingRun reader llm rank st ev =
          runPipeline reader llm rank st ev := by
        unfold processingRun
        rw [hres]
      rw [hpr] at h
      rw [hres] at h
      exact absurd h (by simp)
  | ok o =>
      have hpr : processingRun reader llm rank st ev =
          { runPipeline reader llm rank st ev with
            finalState :=
              update_chat_history (runPipeline reader llm rank st ev).finalState
                o "assistant" } := by
        unfold processingRun
        rw [hres]
      rw [hpr] at h
      have h2 : (runPipeline reader llm rank st ev).result = Except.ok out := h
      rw [hres] at h2
      have ho : o = out := by
        simpa using h2
      obtain ⟨condensed, hcok, hhist, hcalls, hrq⟩ :=
        runPipeline_ok_cases reader llm rank st ev o hres
      have hfh : (processingRun reader llm rank st ev).finalState.chatHistory =
          st.chatHistory ++
            [{ role := "user", content := Content.text ev.query_str },
             { role := "assistant", content := Content.text out }] := by
        rw [hpr]
        show (runPipeline reader llm rank st ev).finalState.chatHistory ++
            [{ role := "assistant", content := Content.text o }] = _
        rw [hhist, ho, List.append_assoc]
        rfl
      refine ⟨?_, hfh, ?_⟩
      · refine ⟨_prepare_query_with_context ev.query_str
          (retrieve rank (setup reader st ev).1 condensed).1, ?_⟩
        have hlc : (processingRun reader llm rank st ev).llmCalls =
            (runPipeline reader llm rank st ev).llmCalls := by
          rw [hpr]
        rw [hlc, hcalls, himg]
        rw [List.getLast?_concat]
        rfl
      · intro m hm
        rw [hfh, List.drop_left] at hm
        simp only [List.mem_cons, List.not_mem_nil, or_false] at hm
        rcases hm with rfl | rfl
        · rfl
        · rfl

/-- Witness for image_only_in_model_call: a concrete successful run with an
image appends only the plain text turns to the history. -/
theorem image_only_in_model_call_witness :
    (processingRun exReader okLLM exRank initAgentState evI).finalState.chatHistory =
      initAgentState.chatHistory ++
        [{ role := "user", content := Content.text "look" },
         { role := "assistant", content := Content.text "fine" }] :=
  (image_only_in_model_call exReader okLLM exRank initAgentState evI "img.png"
    "fine" rfl (by decide)).2.1

/-! Claim C10. -/

/-- The retrieve step consults the ranking oracle with exactly the condensed
query when a retriever is configured, and with nothing otherwise. -/
theorem retrieve_queries (rank : String → List Node) (st : AgentState)
    (q : String) :
    (retrieve rank st q).2 = (if st.hasRetriever = true then [q] else []) := by
  simp only [retrieve]
  split <;> rfl

/-- Claim C10: the condensed query feeds only the retrieval stage — the
retriever is consulted with exactly the condensation output — while the final
generation call is built from the original query and the retrieved node
texts, through the context template, and so never embeds the condensation
output itself. -/
theorem condensed_only_for_retrieval (reader : Finset String → List RawDoc)
    (llm : LLMOracle) (rank : String → List Node) (st : AgentState)
    (ev : InvocationInput) (out condensed : String)
    (h : (processingRun reader llm rank st ev).result = Except.ok out)
    (hc : (condense_history_to_query llm (setup reader st ev).1 ev.query_str).1 =
      Except.ok condensed) :
    (processingRun reader llm rank st ev).retrieveQueries =
      (if (setup reader st ev).1.hasRetriever = true then [condensed] else []) ∧
    (processingRun reader llm rank st ev).llmCalls.getLast? =
      some { messages := ((setup reader st ev).1.chatHistory ++
               [formatMessage (_prepare_query_with_context ev.query_str
                 (retrieve rank (setup reader st ev).1 condensed).1) ev.image]),
             stream := ev.streaming } := by
  cases hres : (runPipeline reader llm rank st ev).result with
  | error e =>
      have hpr : processingRun reader llm rank st ev =
          runPipeline reader llm rank st ev := by
        unfold processingRun
        rw [hres]
      rw [hpr] at h
      rw [hres] at h
      exact absurd h (by simp)
  | ok o =>
      have hpr : processingRun reader llm rank st ev =
          { runPipeline reader llm rank st ev with
            finalState :=
              update_chat_history (runPipeline reader llm rank st ev).finalState
                o "assistant" } := by
        unfold processingRun
        rw [hres]
      obtain ⟨condensed2, hcok, hhist, hcalls, hrq⟩ :=
        runPipeline_ok_cases reader llm rank st ev o hres
      have hceq : condensed2 = condensed := by
        rw [hcok] at hc
        simpa using hc
      rw [hceq] at hcalls hrq
      constructor
      · have : (processingRun reader llm rank st ev).retrieveQueries =
            (runPipeline reader llm rank st ev).retrieveQueries := by
          rw [hpr]
        rw [this, hrq, retrieve_queries]
      · have : (processingRun reader llm rank st ev).llmCalls =
            (runPipeline reader llm rank st ev).llmCalls := by
          rw [hpr]
        rw [this, hcalls, List.getLast?_concat]

/-- Witness for condensed_only_for_retrieval: with a configured retriever the
ranking oracle receives exactly the condensation output built from the model
rewrite, not the original query. -/
theorem condensed_only_for_retrieval_witness :
    (processingRun exReader okLLM exRank stR evW).retrieveQueries =
      ["Context:\nfine\nQuestion: hello"] := by
  have h := condensed_only_for_retrieval exReader okLLM exRank stR evW "fine"
    "Context:\nfine\nQuestion: hello" (by decide) (by decide)
  rw [h.1]
  decide

end LlamaAssistant
